import Mathlib

/-!
Verification of mixcloud_uploader: request building, response
reconciliation, tracklist parsing, publish-date validation and configuration
location.

A shallow embedding of `mixcloud.go`.  Console output is kept as the ordered
list of strings written to each stream, the multipart writer as the ordered
list of form fields written to it, and process termination (`os.Exit`, a
run-time panic) as a constructor of `Outcome`.
-/

namespace Mixcloud

/-! ## Data model -/

/-- Modelled from the spec: the struct `mixcloud.Track` (package `mixcloud`,
whose declaration is used by `mixcloud.go`): artist, song and start time in
seconds.  `Time` is a Go `int`, rendered with `%d`. -/
structure Track where
  Artist : String
  Song : String
  Time : Int
deriving DecidableEq, Repr

/-- Modelled from the spec: the struct `mixcloud.User`; only the field
`IsPro` is read by `mixcloud.go`. -/
structure User where
  IsPro : Bool
deriving DecidableEq, Repr

/-- Modelled from the spec: the error variant of `mixcloud.Response`
(reached through the pointer `response.Error`). -/
structure Error where
  Message : String
deriving DecidableEq, Repr

/-- Modelled from the spec: the result variant of `mixcloud.Response`, a
success flag and the resource key.  It is a value, read as
`response.Result.Success` without a nil check; a response without a `result`
member decodes to the zero value (`Success = false`, `Key = ""`). -/
structure Result where
  Success : Bool
  Key : String
deriving DecidableEq, Repr

/-- Modelled from the spec: the struct `mixcloud.Response`.  `Error` is a
pointer (`none` is `nil`), `Details` stands for the structured details that
accompany an error, kept as their text. -/
structure Response where
  Error : Option Error
  Result : Result
  Details : String
deriving DecidableEq, Repr

/-- The environment of a run: the escape sequences of the package `term`
and the renderings done by the Go standard library that `mixcloud.go` only
passes through (`%v` of a value, the local RFC 1123 form of a time). -/
structure Env where
  Green : String
  Red : String
  Bold : String
  Reset : String
  fmtDetails : String → String
  fmtResponse : Response → String
  rfc1123 : Int → String

/-- The two output streams: the strings written to standard output and to
standard error, oldest first. -/
structure World where
  out : List String
  err : List String
deriving DecidableEq, Repr

/-- How a function of the program ends: it returns, it stops the process
through `os.Exit`, or it dies in a run-time panic. -/
inductive Outcome (α : Type) where
  | ret (a : α) (w : World)
  | exit (code : Nat) (w : World)
  | panic (msg : String) (w : World)
deriving DecidableEq, Repr

/-- The fields written to a `multipart.Writer`, oldest first, as
`(name, value)`. -/
abbrev Writer := List (String × String)

/-- Source `writer.WriteField(name, value)` on a writer over a `bytes.Buffer`. -/
def WriteField (writer : Writer) (name value : String) : Writer :=
  writer ++ [(name, value)]

/-- Source `OutputMessage`: write to standard output and flush. -/
def OutputMessage (message : String) (w : World) : World :=
  { w with out := w.out ++ [message] }

/-- Source `OutputError`: write the message in bold red to standard error. -/
def OutputError (env : Env) (message : String) (w : World) : World :=
  { w with err := w.err ++ [env.Bold ++ env.Red ++ message ++ env.Reset ++ "\n"] }

/-- Library `fmt.Printf`: write to standard output. -/
def Printf (text : String) (w : World) : World :=
  { w with out := w.out ++ [text] }

/-! ## Upload request builder -/

/-- The loop `for i, tag := range tag_list` of `BuildBasicHTTPWriter`,
entered at index `i`. -/
def writeTags (writer : Writer) (i : Nat) : List String → Writer
  | [] => writer
  | tag :: rest =>
    writeTags (WriteField writer ("tags-" ++ toString i ++ "-tag") tag) (i + 1) rest

/-- The loop `for i, track := range tracklist` of `BuildBasicHTTPWriter`,
entered at index `i`. -/
def writeSections (writer : Writer) (i : Nat) : List Track → Writer
  | [] => writer
  | track :: rest =>
    let artist_field_name := "sections-" ++ toString i ++ "-artist"
    let song_field_name := "sections-" ++ toString i ++ "-song"
    let duration_field_name := "sections-" ++ toString i ++ "-start_time"
    let w1 := WriteField writer artist_field_name track.Artist
    let w2 := WriteField w1 song_field_name track.Song
    let w3 := WriteField w2 duration_field_name (toString track.Time)
    writeSections w3 (i + 1) rest

/-- Source `BuildBasicHTTPWriter`.  A Go slice that may be `nil` is an `Option`
(`none` is `nil`); ranging over the tags does not tell `nil` from empty. -/
def BuildBasicHTTPWriter (writer : Writer) (name desc : String) (tag_list : List String)
    (tracklist : Option (List Track)) : Writer :=
  let w1 := WriteField writer "name" name
  let w2 := WriteField w1 "description" desc
  let w3 := writeTags w2 0 tag_list
  match tracklist with
  | none => w3
  | some l => writeSections w3 0 l

/-- A field whose name starts with `tags-`. -/
def isTagField (f : String × String) : Bool :=
  "tags-".data.isPrefixOf f.1.data

/-- A field whose name starts with `sections-`. -/
def isSectionField (f : String × String) : Bool :=
  "sections-".data.isPrefixOf f.1.data

/-- The three section fields the spec asks for, for the track `p.2` at index
`p.1`. -/
def sectionFields (p : Nat × Track) : List (String × String) :=
  [("sections-" ++ toString p.1 ++ "-artist", p.2.Artist),
   ("sections-" ++ toString p.1 ++ "-song", p.2.Song),
   ("sections-" ++ toString p.1 ++ "-start_time", toString p.2.Time)]

/-! ## Response reconciler and tracklist printing -/

/-- The call `fmt.Sprintf(TRACKLIST_OUTPUT_FORMAT, n, artist, song)` with the format
`"%d. %s-%s\n"`. -/
def TRACKLIST_OUTPUT_FORMAT (n : Nat) (artist song : String) : String :=
  toString n ++ ". " ++ artist ++ "-" ++ song ++ "\n"

/-- The loop `for i, track := range tracklist` of `printTracklist`, entered
at index `i`. -/
def printTracks (i : Nat) : List Track → World → World
  | [], w => w
  | track :: rest, w =>
    printTracks (i + 1) rest
      (OutputMessage (TRACKLIST_OUTPUT_FORMAT (i + 1) track.Artist track.Song) w)

/-- Source `printTracklist`: ranging over a `nil` slice runs no iteration. -/
def printTracklist (tracklist : Option (List Track)) (w : World) : World :=
  printTracks 0 (tracklist.getD []) (OutputMessage "Tracklist\n" w)

/-- Source `handleJSONResponse`: the flag it returns and the output it leaves. -/
def handleJSONResponse (env : Env) (response : Response) (w : World) : Bool × World :=
  match response.Error with
  | some e =>
    (false, Printf (env.fmtDetails response.Details) (OutputError env e.Message w))
  | none =>
    if response.Result.Success then
      let w1 := OutputMessage (env.Green ++ "Sucessfully uploaded file" ++ env.Reset ++ "\n") w
      let path := response.Result.Key
      (true, OutputMessage
        (env.Green ++ "https://mixcloud.com" ++ path ++ "edit" ++ env.Reset ++ "\n") w1)
    else
      (false, Printf (env.fmtResponse response)
        (OutputError env "Error uploading, no success" w))

/-- The end of `main`, from the decoded response on:
`if handleJSONResponse(*Response) { printTracklist(tracklist) } else { os.Exit(2) }`.
Returning from `main` ends the process with status 0. -/
def main_reconcile (env : Env) (response : Response) (tracklist : Option (List Track))
    (w : World) : Outcome Unit :=
  match handleJSONResponse env response w with
  | (true, w1) => .ret () (printTracklist tracklist w1)
  | (false, w1) => .exit 2 w1

/-! ## Tracklist parser -/

/-- One element of the `tracklist` array, as the anonymous struct of
`parseTracklist` receives it from the JSON decoder. -/
structure Entry where
  Title : String
  Artist : String
  Label : String
  Url : String
  TimeString : String
  Time : Int
deriving DecidableEq, Repr

/-- What opening and decoding the tracklist file gives: the file cannot be
opened, it cannot be decoded into the expected shape, or it is decoded and
its `tracklist` array is `Tracklist`. -/
inductive TracklistFile where
  | missing
  | malformed (msg : String)
  | decoded (Tracklist : List Entry)
deriving DecidableEq, Repr

/-- The Go builtin `append(list, x)` on a slice that may be `nil`. -/
def goAppend {α : Type} (list : Option (List α)) (x : α) : Option (List α) :=
  some (list.getD [] ++ [x])

/-- The loop `for _, entry := range tracklistObj.Tracklist` of
`parseTracklist`, with the slice built so far. -/
def appendTracks (list : Option (List Track)) : List Entry → Option (List Track)
  | [] => list
  | entry :: rest =>
    let thistrack : Track := { Artist := entry.Artist, Song := entry.Title, Time := entry.Time }
    appendTracks (goAppend list thistrack) rest

/-- Source `parseTracklist`, from the outcome of opening and decoding the file on.
Both failures return `nil`; the diagnostic they write to standard error is
left out.  `list` starts as the `nil` slice. -/
def parseTracklist (file : TracklistFile) : Option (List Track) :=
  match file with
  | .missing => none
  | .malformed _ => none
  | .decoded entries => appendTracks none entries

/-! ## Token exchange client -/

/-- A JSON value as `encoding/json` decodes it into `interface{}`. -/
inductive JSON where
  | null
  | bool (b : Bool)
  | number (literal : String)
  | string (s : String)
  | array (items : List JSON)
  | object (members : List (String × JSON))

/-- The dynamic Go type of a decoded JSON value, as a panic names it. -/
def JSON.goType : JSON → String
  | .null => "nil"
  | .bool _ => "bool"
  | .number _ => "float64"
  | .string _ => "string"
  | .array _ => "[]interface \x7b\x7d"
  | .object _ => "map[string]interface \x7b\x7d"

/-- Indexing the decoded `map[string]interface{}`: the decoder keeps the
last member of a given name, and a missing key reads as `nil`. -/
def mapIndex (members : List (String × JSON)) (key : String) : Option JSON :=
  (members.reverse.find? (fun m => m.1 == key)).map Prod.snd

/-- What the token endpoint call gives: a transport error, a body that does
not decode into a JSON object, or the members of the decoded object. -/
inductive TokenReply where
  | transportError (msg : String)
  | undecodable (msg : String)
  | object (members : List (String × JSON))

/-- Source `fetchAccessCode`, from the outcome of `client.Do` and of decoding the
body on.  The unchecked type assertion `.(string)` panics on a value of any
other dynamic type. -/
def fetchAccessCode (env : Env) (reply : TokenReply) (w : World) : Outcome String :=
  match reply with
  | .transportError msg =>
    .exit 2 (OutputError env ("Error fetching Access Code: " ++ msg) w)
  | .undecodable msg =>
    .exit 2 (OutputError env ("Error decoding response from API - " ++ msg) w)
  | .object jsonResponse =>
    match mapIndex jsonResponse "access_token" with
    | none => .ret "" w
    | some .null => .ret "" w
    | some (.string s) => .ret s w
    | some v =>
      .panic ("interface conversion: interface \x7b\x7d is " ++ v.goType ++ ", not string") w

/-! ## Configuration location -/

/-- Split a path at every `/`. -/
def splitSlash : List Char → List (List Char)
  | [] => [[]]
  | c :: cs =>
    if c = '/' then [] :: splitSlash cs
    else match splitSlash cs with
      | [] => [[c]]
      | h :: t => (c :: h) :: t

/-- One path element met by `filepath.Clean`; `stack` holds the elements
kept so far, last first.  Empty elements and `.` are dropped, `..` removes
the last kept element when there is one that is not itself `..`, is dropped
at the root and is kept otherwise. -/
def cleanStep (rooted : Bool) (stack : List (List Char)) (comp : List Char) :
    List (List Char) :=
  if comp = [] ∨ comp = ['.'] then stack
  else if comp = ['.', '.'] then
    match stack with
    | [] => if rooted then [] else [comp]
    | top :: rest => if top = ['.', '.'] then comp :: stack else rest
  else comp :: stack

/-- The Go library function `filepath.Clean` on a Unix path. -/
def Clean (path : String) : String :=
  if path = "" then "."
  else
    let rooted := path.data.head? == some '/'
    let kept := ((splitSlash path.data).foldl (cleanStep rooted) []).reverse
    let body := String.mk (List.intercalate ['/'] kept)
    if rooted then "/" ++ body
    else if kept = [] then "." else body

/-- The Go library function `filepath.Join` on Unix: leading empty elements
are skipped, the rest is joined with `/` and cleaned; no non-empty element
gives `""`. -/
def Join : List String → String
  | [] => ""
  | e :: rest =>
    if e = "" then Join rest
    else Clean (String.intercalate "/" (e :: rest))

/-- The package-level variables `setupApp` assigns. -/
structure Globals where
  CONFIG_FILE : String
  CONFIG_FILE_PATH : String
deriving DecidableEq, Repr

/-- The initial values: `CONFIG_FILE = "config.json"`, `CONFIG_FILE_PATH = ""`. -/
def initGlobals : Globals :=
  { CONFIG_FILE := "config.json", CONFIG_FILE_PATH := "" }

/-- The pointer `flag.String("config-dir", "", ...)` after `flag.Parse`: a pointer that
is never `nil`, to the value given on the command line or to the default
`""` when the flag was not given (`none`). -/
def configDirFlag (given : Option String) : Option String :=
  some (given.getD "")

/-- Source `setupApp`.  `usr` is the result of `user.Current()` (`none` is a `nil`
pointer, its error being ignored), `flagPtr` is the pointer `configDirFlag`,
`isNotExist` tells whether `os.Stat` reports a missing path.  The result is
the globals and the directory `os.Mkdir` is called on, if any. -/
def setupApp (usr : Option String) (flagPtr : Option String) (isNotExist : String → Bool)
    (g : Globals) : Except String (Globals × Option String) :=
  let path : Except String String :=
    match flagPtr with
    | none =>
      match usr with
      | none => .error "invalid memory address or nil pointer dereference"
      | some HomeDir => .ok (Join [HomeDir, ".mixcloud"])
    | some v => .ok v
  match path with
  | .error e => .error e
  | .ok CONFIG_FILE_PATH =>
    let g1 : Globals :=
      { CONFIG_FILE_PATH := CONFIG_FILE_PATH,
        CONFIG_FILE := Join [CONFIG_FILE_PATH, g.CONFIG_FILE] }
    .ok (g1, if isNotExist CONFIG_FILE_PATH then some CONFIG_FILE_PATH else none)

/-- The call of `setupApp` as `main` runs it: on the initial globals, with the flag
pointer that `flag.String` returned. -/
def setupAppFromArgs (HomeDir : String) (given : Option String) (isNotExist : String → Bool) :
    Except String (Globals × Option String) :=
  setupApp (some HomeDir) (configDirFlag given) isNotExist initGlobals

/-! ## Publish date input -/

/-- Decimal digits of `n`, padded with zeros on the left to `width`. -/
def zeroPad (width n : Nat) : String :=
  String.mk (List.replicate (width - (toString n).length) '0') ++ toString n

/-- The helper `appendInt` of the Go package `time`: a sign for a negative number, then
the zero-padded magnitude. -/
def appendInt (x : Int) (width : Nat) : String :=
  if x < 0 then "-" ++ zeroPad width x.natAbs else zeroPad width x.natAbs

/-- Year, month and day of the proleptic Gregorian calendar for a count of
days since 1970-01-01. -/
def civilFromDays (days : Int) : Int × Int × Int :=
  let z := days + 719468
  let era := Int.fdiv z 146097
  let doe := z - era * 146097
  let yoe := Int.fdiv (doe - Int.fdiv doe 1460 + Int.fdiv doe 36524 - Int.fdiv doe 146096) 365
  let doy := doe - (365 * yoe + Int.fdiv yoe 4 - Int.fdiv yoe 100)
  let mp := Int.fdiv (5 * doy + 2) 153
  let d := doy - Int.fdiv (153 * mp + 2) 5 + 1
  let m := if mp < 10 then mp + 3 else mp - 9
  let y := yoe + era * 400 + (if m ≤ 2 then 1 else 0)
  (y, m, d)

/-- The Go library call `t.UTC().Format(time.RFC3339)` for the instant `t`, in nanoseconds
since the Unix epoch: `2006-01-02T15:04:05Z`. -/
def formatRFC3339UTC (t : Int) : String :=
  let sec := Int.fdiv t 1000000000
  let days := Int.fdiv sec 86400
  let rem := sec - days * 86400
  let ymd := civilFromDays days
  appendInt ymd.1 4 ++ "-" ++ appendInt ymd.2.1 2 ++ "-" ++ appendInt ymd.2.2 2 ++ "T" ++
    appendInt (Int.fdiv rem 3600) 2 ++ ":" ++ appendInt (Int.fdiv (rem - Int.fdiv rem 3600 * 3600) 60) 2
    ++ ":" ++ appendInt (rem - Int.fdiv rem 60 * 60) 2 ++ "Z"

/-- The Go library call `t.After(u)` on two instants. -/
def After (t u : Int) : Bool := decide (u < t)

/-- One reading of `time.Now().In(time.Local)`: the instant in nanoseconds
since the Unix epoch, and the name and offset in seconds of its zone. -/
structure Clock where
  now : Int
  zonename : String
  offset : Int

/-- One line asked for by `PublishDateInput`: reading it fails, it is not
of the form `DD/MM/YYYY HH:MM` (the message of the parser is kept), or it parses
to the instant `t`. -/
inductive DateLine where
  | readError
  | malformed (msg : String)
  | parsed (t : Int)
deriving DecidableEq, Repr

/-- The call `fmt.Sprintf("%+d", n)`: a sign, then the decimal magnitude. -/
def fmtPlusD (n : Int) : String :=
  if n < 0 then toString n else "+" ++ toString n

/-- The prompt `PublishDateInput` writes for a clock reading. -/
def datePrompt (c : Clock) : String :=
  "Enter a publish date in " ++ c.zonename ++ " (" ++
    fmtPlusD (Int.tdiv (Int.tdiv c.offset 60) 60) ++ " GMT) [DD/MM/YYYY HH:MM]: "

/-- Source `PublishDateInput` with `ParseDateInputToTime` inlined.  The `k`-th
call reads the clock `clock k` and the next line of standard input; an
exhausted input makes `ReadString` fail. -/
def PublishDateInput (env : Env) (clock : Nat → Clock) (k : Nat) :
    List DateLine → World → Outcome String
  | [], w =>
    .exit 2 (OutputError env "Incorrect publish date." (OutputMessage (datePrompt (clock k)) w))
  | line :: rest, w =>
    let current_time := (clock k).now
    let w1 := OutputMessage (datePrompt (clock k)) w
    match line with
    | .readError => .exit 2 (OutputError env "Incorrect publish date." w1)
    | .malformed msg => .exit 2 (OutputError env ("Incorrect date format  - " ++ msg) w1)
    | .parsed publish_date =>
      if !After publish_date current_time then
        PublishDateInput env clock (k + 1) rest
          (OutputError env ("Date " ++ env.rfc1123 publish_date ++ " is not in the future") w1)
      else
        .ret (formatRFC3339UTC publish_date) w1

/-! ## Premium fields -/

/-- Modelled from the spec: `confirm.AskForConfirmation` (package `confirm`),
the yes/no answers to the four questions of `GetPremiumInput`, in the order
they are asked. -/
structure Answers where
  disable_comments : Bool
  hide_stats : Bool
  unlisted : Bool
  publish_date : Bool
deriving DecidableEq, Repr

/-- Source `GetPremiumInput`: returns `(publish_date, disable_comments, hide_stats,
unlisted)`. -/
def GetPremiumInput (env : Env) (ans : Answers) (clock : Nat → Clock) (stdin : List DateLine)
    (w : World) : Outcome (String × Bool × Bool × Bool) :=
  let w1 := Printf "Disable comments? [y/n] " w
  let disable_comments := if ans.disable_comments then true else false
  let w2 := Printf "Hide statistics? [y/n] " w1
  let hide_stats := if ans.hide_stats then true else false
  let w3 := Printf "Set to unlisted? [y/n] " w2
  let unlisted := if ans.unlisted then true else false
  let w4 := Printf "Set publish date? [y/n] " w3
  if ans.publish_date then
    match PublishDateInput env clock 0 stdin w4 with
    | .ret publish_date w5 => .ret (publish_date, disable_comments, hide_stats, unlisted) w5
    | .exit c w5 => .exit c w5
    | .panic m w5 => .panic m w5
  else
    .ret ("", disable_comments, hide_stats, unlisted) w4

/-- Source `AddPremiumToHTTPWriter` for the current user. -/
def AddPremiumToHTTPWriter (env : Env) (CURRENT_USER : User) (ans : Answers)
    (clock : Nat → Clock) (stdin : List DateLine) (writer : Writer) (w : World) :
    Outcome Writer :=
  if !CURRENT_USER.IsPro then .ret writer w
  else
    let w1 := OutputMessage ("\n" ++ env.Green ++ "Setting pro user attributes..." ++ env.Reset ++ "\n") w
    match GetPremiumInput env ans clock stdin w1 with
    | .exit c w2 => .exit c w2
    | .panic m w2 => .panic m w2
    | .ret (publish_date, disable_comments, hide_stats, unlisted) w2 =>
      let wr1 := if publish_date != "" then WriteField writer "publish_date" publish_date else writer
      let wr2 := if disable_comments then WriteField wr1 "disable_comments" "1" else wr1
      let wr3 := if hide_stats then WriteField wr2 "hide_stats" "1" else wr2
      let wr4 := if unlisted then WriteField wr3 "unlisted" "1" else wr3
      .ret wr4 w2

/-- An environment with the usual ANSI sequences, for evaluation. -/
def sampleEnv : Env :=
  { Green := "\x1b[32m", Red := "\x1b[31m", Bold := "\x1b[1m", Reset := "\x1b[0m",
    fmtDetails := fun d => d, fmtResponse := fun r => r.Result.Key, rfc1123 := fun _ => "past" }

/-- A clock that stands still at `now`, in UTC. -/
def fixedClock (now : Int) : Nat → Clock :=
  fun _ => { now := now, zonename := "UTC", offset := 0 }

/-! ## Theorems: upload request builder -/

theorem writeTags_eq (writer : Writer) (i : Nat) (T : List String) :
    writeTags writer i T =
      writer ++ (T.enumFrom i).map (fun p => ("tags-" ++ toString p.1 ++ "-tag", p.2)) := by
  induction T generalizing writer i with
  | nil => simp [writeTags]
  | cons t rest ih => simp [writeTags, ih, WriteField, List.enumFrom]

theorem writeSections_eq (writer : Writer) (i : Nat) (L : List Track) :
    writeSections writer i L = writer ++ ((L.enumFrom i).map sectionFields).flatten := by
  induction L generalizing writer i with
  | nil => simp [writeSections]
  | cons t rest ih => simp [writeSections, ih, WriteField, List.enumFrom, sectionFields]

theorem BuildBasicHTTPWriter_eq (writer : Writer) (name desc : String) (T : List String)
    (tl : Option (List Track)) :
    BuildBasicHTTPWriter writer name desc T tl =
      writer ++ ([("name", name), ("description", desc)] ++
        (T.enum.map (fun p => ("tags-" ++ toString p.1 ++ "-tag", p.2)) ++
          (((tl.getD []).enum).map sectionFields).flatten)) := by
  cases tl <;> simp [BuildBasicHTTPWriter, writeTags_eq, writeSections_eq, WriteField, List.enum]

theorem isTagField_tag (i : Nat) (v : String) :
    isTagField ("tags-" ++ toString i ++ "-tag", v) = true := by
  simp only [isTagField, String.data_append, List.isPrefixOf_iff_prefix, List.append_assoc]
  exact List.prefix_append _ _

theorem isSectionField_section (i : Nat) (suffix v : String) :
    isSectionField ("sections-" ++ toString i ++ suffix, v) = true := by
  simp only [isSectionField, String.data_append, List.isPrefixOf_iff_prefix, List.append_assoc]
  exact List.prefix_append _ _

theorem isTagField_section (i : Nat) (suffix v : String) :
    isTagField ("sections-" ++ toString i ++ suffix, v) = false := by
  simp [isTagField, String.data_append, List.isPrefixOf]

theorem isSectionField_tag (i : Nat) (v : String) :
    isSectionField ("tags-" ++ toString i ++ "-tag", v) = false := by
  simp [isSectionField, String.data_append, List.isPrefixOf]


theorem filter_isTagField_tags (i : Nat) (T : List String) :
    ((T.enumFrom i).map (fun p => ("tags-" ++ toString p.1 ++ "-tag", p.2))).filter isTagField =
      (T.enumFrom i).map (fun p => ("tags-" ++ toString p.1 ++ "-tag", p.2)) := by
  rw [List.filter_eq_self]
  intro f hf
  obtain ⟨p, _, rfl⟩ := List.mem_map.1 hf
  exact isTagField_tag _ _

theorem filter_isTagField_sections (i : Nat) (L : List Track) :
    (((L.enumFrom i).map sectionFields).flatten).filter isTagField = [] := by
  rw [List.filter_eq_nil_iff]
  intro f hf
  obtain ⟨l, hl, hfl⟩ := List.mem_flatten.1 hf
  obtain ⟨p, _, rfl⟩ := List.mem_map.1 hl
  simp only [sectionFields, List.mem_cons, List.mem_singleton, List.not_mem_nil, or_false] at hfl
  rcases hfl with rfl | rfl | rfl <;> simp [isTagField_section]

theorem filter_isSectionField_tags (i : Nat) (T : List String) :
    ((T.enumFrom i).map (fun p => ("tags-" ++ toString p.1 ++ "-tag", p.2))).filter
      isSectionField = [] := by
  rw [List.filter_eq_nil_iff]
  intro f hf
  obtain ⟨p, _, rfl⟩ := List.mem_map.1 hf
  simp [isSectionField_tag]

theorem filter_isSectionField_sections (i : Nat) (L : List Track) :
    (((L.enumFrom i).map sectionFields).flatten).filter isSectionField =
      ((L.enumFrom i).map sectionFields).flatten := by
  rw [List.filter_eq_self]
  intro f hf
  obtain ⟨l, hl, hfl⟩ := List.mem_flatten.1 hf
  obtain ⟨p, _, rfl⟩ := List.mem_map.1 hl
  simp only [sectionFields, List.mem_cons, List.mem_singleton, List.not_mem_nil, or_false] at hfl
  rcases hfl with rfl | rfl | rfl <;> exact isSectionField_section _ _ _

theorem sections_length (i : Nat) (L : List Track) :
    (((L.enumFrom i).map sectionFields).flatten).length = 3 * L.length := by
  induction L generalizing i with
  | nil => simp
  | cons t rest ih =>
    simp only [List.enumFrom, List.map_cons, List.flatten_cons, List.length_append, ih,
      List.length_cons]
    simp [sectionFields]; omega

theorem sections_getElem? (i : Nat) (L : List Track) (j : Nat) :
    (((L.enumFrom i).map sectionFields).flatten)[3 * j]? =
        L[j]?.map (fun t => ("sections-" ++ toString (i + j) ++ "-artist", t.Artist)) ∧
    (((L.enumFrom i).map sectionFields).flatten)[3 * j + 1]? =
        L[j]?.map (fun t => ("sections-" ++ toString (i + j) ++ "-song", t.Song)) ∧
    (((L.enumFrom i).map sectionFields).flatten)[3 * j + 2]? =
        L[j]?.map (fun t => ("sections-" ++ toString (i + j) ++ "-start_time", toString t.Time)) := by
  induction L generalizing i j with
  | nil => simp
  | cons t rest ih =>
    cases j with
    | zero => simp [List.enumFrom, sectionFields]
    | succ j =>
      have h := ih (i + 1) j
      have e0 : 3 * (j + 1) = (3 * j) + 3 := by omega
      have e1 : 3 * (j + 1) + 1 = (3 * j + 1) + 3 := by omega
      have e2 : 3 * (j + 1) + 2 = (3 * j + 2) + 3 := by omega
      have ei : i + (j + 1) = i + 1 + j := by omega
      simp only [List.enumFrom, List.map_cons, List.flatten_cons, sectionFields, e0, e1, e2, ei,
        List.cons_append, List.nil_append, List.getElem?_cons_succ]
      exact h

/-- C1: whatever the writer already holds and whatever the name,
description and tracklist are, the fields `BuildBasicHTTPWriter` adds whose
name starts with `tags-` are exactly one per tag, in the order of the tag
list: the `j`-th of them is named `tags-j-tag` and carries the `j`-th tag
unchanged, so there are `len(T)` of them and duplicates are kept. -/
theorem BuildBasicHTTPWriter_tag_fields (writer : Writer) (name desc : String)
    (T : List String) (tracklist : Option (List Track)) :
    ∃ added : List (String × String),
      BuildBasicHTTPWriter writer name desc T tracklist = writer ++ added ∧
      added.filter isTagField =
        T.enum.map (fun p => ("tags-" ++ toString p.1 ++ "-tag", p.2)) ∧
      (added.filter isTagField).length = T.length ∧
      ∀ j : Nat, (added.filter isTagField)[j]? =
        T[j]?.map (fun tag => ("tags-" ++ toString j ++ "-tag", tag)) := by
  refine ⟨_, BuildBasicHTTPWriter_eq writer name desc T tracklist, ?_⟩
  have hf : ([("name", name), ("description", desc)] ++
        (T.enum.map (fun p => ("tags-" ++ toString p.1 ++ "-tag", p.2)) ++
          (((tracklist.getD []).enum).map sectionFields).flatten)).filter isTagField =
      T.enum.map (fun p => ("tags-" ++ toString p.1 ++ "-tag", p.2)) := by
    rw [List.filter_append, List.filter_append]
    unfold List.enum
    rw [filter_isTagField_tags, filter_isTagField_sections]
    have h2 : List.filter isTagField [("name", name), ("description", desc)] = [] := by
      simp [List.filter, isTagField, List.isPrefixOf]
    rw [h2]; simp
  rw [hf]
  refine ⟨rfl, by simp, ?_⟩
  intro j
  simp [List.enum]
  cases T[j]? <;> simp

/-- C2: the fields `BuildBasicHTTPWriter` adds whose name starts with
`sections-` are exactly three per track, in tracklist order: for the track at
zero-based index `i` they are `sections-i-artist`, `sections-i-song` and
`sections-i-start_time`, carrying the artist, the song and the decimal start
time, so there are `3 * len(L)` of them; a `nil` and an empty tracklist add
none. -/
theorem BuildBasicHTTPWriter_section_fields (writer : Writer) (name desc : String)
    (T : List String) (tracklist : Option (List Track)) :
    ∃ added : List (String × String),
      BuildBasicHTTPWriter writer name desc T tracklist = writer ++ added ∧
      added.filter isSectionField = (((tracklist.getD []).enum).map sectionFields).flatten ∧
      (added.filter isSectionField).length = 3 * (tracklist.getD []).length ∧
      (∀ i : Nat,
        (added.filter isSectionField)[3 * i]? = (tracklist.getD [])[i]?.map
          (fun t => ("sections-" ++ toString i ++ "-artist", t.Artist)) ∧
        (added.filter isSectionField)[3 * i + 1]? = (tracklist.getD [])[i]?.map
          (fun t => ("sections-" ++ toString i ++ "-song", t.Song)) ∧
        (added.filter isSectionField)[3 * i + 2]? = (tracklist.getD [])[i]?.map
          (fun t => ("sections-" ++ toString i ++ "-start_time", toString t.Time))) ∧
      (BuildBasicHTTPWriter [] name desc T none).filter isSectionField = [] ∧
      (BuildBasicHTTPWriter [] name desc T (some [])).filter isSectionField = [] := by
  have hf : ∀ tl : Option (List Track), ([("name", name), ("description", desc)] ++
        (T.enum.map (fun p => ("tags-" ++ toString p.1 ++ "-tag", p.2)) ++
          (((tl.getD []).enum).map sectionFields).flatten)).filter isSectionField =
      (((tl.getD []).enum).map sectionFields).flatten := by
    intro tl
    rw [List.filter_append, List.filter_append]
    unfold List.enum
    rw [filter_isSectionField_tags, filter_isSectionField_sections]
    have h2 : List.filter isSectionField [("name", name), ("description", desc)] = [] := by
      simp [List.filter, isSectionField, List.isPrefixOf]
    rw [h2]; simp
  refine ⟨_, BuildBasicHTTPWriter_eq writer name desc T tracklist, ?_⟩
  rw [hf]
  refine ⟨rfl, sections_length 0 _, ?_, ?_, ?_⟩
  · intro i
    have h := sections_getElem? 0 (tracklist.getD []) i
    simpa [List.enum] using h
  · rw [BuildBasicHTTPWriter_eq, List.nil_append, hf]; simp
  · rw [BuildBasicHTTPWriter_eq, List.nil_append, hf]; simp

/-! ## Theorems: response reconciler -/

theorem handleJSONResponse_fst (env : Env) (r : Response) (w : World) :
    (handleJSONResponse env r w).1 = (r.Error.isNone && r.Result.Success) := by
  unfold handleJSONResponse
  cases hE : r.Error with
  | some e => simp
  | none => cases hS : r.Result.Success <;> simp

theorem printTracks_out (i : Nat) (L : List Track) (w : World) :
    (printTracks i L w).out =
      w.out ++ (L.enumFrom i).map
        (fun p => toString (p.1 + 1) ++ ". " ++ p.2.Artist ++ "-" ++ p.2.Song ++ "\n") ∧
    (printTracks i L w).err = w.err := by
  induction L generalizing i w with
  | nil => simp [printTracks]
  | cons t rest ih =>
    simp [printTracks, ih, OutputMessage, TRACKLIST_OUTPUT_FORMAT, List.enumFrom]

/-- C4: `handleJSONResponse` returns true exactly when the response carries
no error and its result says success; with an error it returns false even if
the result says success, and so it does when neither is populated or the
success flag is false.  The end of `main` prints the tracklist only in the
first case and otherwise stops the process with status 2, having written to
standard output nothing but the dump of the failed response. -/
theorem handleJSONResponse_success_iff (env : Env) (r : Response)
    (tracklist : Option (List Track)) (w : World) :
    ((handleJSONResponse env r w).1 = true ↔ (r.Error = none ∧ r.Result.Success = true)) ∧
    (∀ (e : Error) (res : Result) (d : String),
      (handleJSONResponse env ⟨some e, res, d⟩ w).1 = false) ∧
    (∀ (key d : String), (handleJSONResponse env ⟨none, ⟨false, key⟩, d⟩ w).1 = false) ∧
    main_reconcile env r tracklist w =
      (if r.Error.isNone && r.Result.Success then
        Outcome.ret () (printTracklist tracklist (handleJSONResponse env r w).2)
      else Outcome.exit 2 (handleJSONResponse env r w).2) ∧
    ((handleJSONResponse env r w).1 = true ∨
      ∃ dump : String, (handleJSONResponse env r w).2.out = w.out ++ [dump]) := by
  refine ⟨?_, ?_, ?_, ?_, ?_⟩
  · rw [handleJSONResponse_fst]
    cases r.Error <;> simp
  · intro e res d
    simp [handleJSONResponse]
  · intro key d
    simp [handleJSONResponse]
  · have h := handleJSONResponse_fst env r w
    unfold main_reconcile
    cases hh : handleJSONResponse env r w with
    | mk b w1 =>
      rw [hh] at h
      simp only at h
      subst h
      cases hb : (r.Error.isNone && r.Result.Success) <;> simp
  · unfold handleJSONResponse
    cases hE : r.Error with
    | some e => exact Or.inr ⟨env.fmtDetails r.Details, by simp [Printf, OutputError]⟩
    | none =>
      cases hS : r.Result.Success with
      | false => exact Or.inr ⟨env.fmtResponse r, by simp [Printf, OutputError]⟩
      | true => exact Or.inl (by simp)

/-- C5: for a response without error whose result says success with
resource key `key`, `handleJSONResponse` returns true and writes, after the
success line, the line holding `"https://mixcloud.com" ++ key ++ "edit"`
between the green and reset sequences; for the key `/user/show/mycast/` the
address is `https://mixcloud.com/user/show/mycast/edit`. -/
theorem handleJSONResponse_share_url (env : Env) (key details : String) (w : World) :
    handleJSONResponse env ⟨none, ⟨true, key⟩, details⟩ w =
      (true, World.mk (w.out ++
          [env.Green ++ "Sucessfully uploaded file" ++ env.Reset ++ "\n",
           env.Green ++ ("https://mixcloud.com" ++ key ++ "edit") ++ env.Reset ++ "\n"])
        w.err) ∧
    handleJSONResponse env ⟨none, ⟨true, "/user/show/mycast/"⟩, details⟩ w =
      (true, World.mk (w.out ++
          [env.Green ++ "Sucessfully uploaded file" ++ env.Reset ++ "\n",
           env.Green ++ "https://mixcloud.com/user/show/mycast/edit" ++ env.Reset ++ "\n"])
        w.err) := by
  constructor
  · simp [handleJSONResponse, OutputMessage, String.append_assoc]
  · have h : "https://mixcloud.com" ++ "/user/show/mycast/" ++ "edit" =
        "https://mixcloud.com/user/show/mycast/edit" := by decide
    simp [handleJSONResponse, OutputMessage, String.append_assoc, ← h]

/-- C6: `printTracklist` writes the heading and then one line per track, in
tracklist order, the line of the track at zero-based position `i` being
`{i+1}. {Artist}-{Song}` followed by a newline; it writes nothing to standard
error, and for a `nil` or empty tracklist it writes the heading only. -/
theorem printTracklist_lines (tracklist : Option (List Track)) (w : World) :
    (printTracklist tracklist w).out =
      w.out ++ "Tracklist\n" :: (tracklist.getD []).enum.map
        (fun p => toString (p.1 + 1) ++ ". " ++ p.2.Artist ++ "-" ++ p.2.Song ++ "\n") ∧
    (printTracklist tracklist w).out.length = w.out.length + 1 + (tracklist.getD []).length ∧
    (∀ i : Nat, (printTracklist tracklist w).out[w.out.length + 1 + i]? =
      (tracklist.getD [])[i]?.map
        (fun t => toString (i + 1) ++ ". " ++ t.Artist ++ "-" ++ t.Song ++ "\n")) ∧
    (printTracklist tracklist w).err = w.err ∧
    (printTracklist none w).out = w.out ++ ["Tracklist\n"] ∧
    (printTracklist (some []) w).out = w.out ++ ["Tracklist\n"] := by
  have h := printTracks_out 0 (tracklist.getD []) (OutputMessage "Tracklist\n" w)
  have hout : (printTracklist tracklist w).out =
      w.out ++ "Tracklist\n" :: (tracklist.getD []).enum.map
        (fun p => toString (p.1 + 1) ++ ". " ++ p.2.Artist ++ "-" ++ p.2.Song ++ "\n") := by
    rw [printTracklist, h.1]; simp [OutputMessage, List.enum]
  refine ⟨hout, ?_, ?_, ?_, ?_, ?_⟩
  · rw [hout]; simp; omega
  · intro i
    rw [hout]
    have e : w.out.length + 1 + i = w.out.length + (i + 1) := by omega
    rw [e, List.getElem?_append_right (by omega)]
    simp [List.enum]
    cases (tracklist.getD [])[i]? <;> simp
  · rw [printTracklist, h.2]; simp [OutputMessage]
  · simp [printTracklist, printTracks, OutputMessage]
  · simp [printTracklist, printTracks, OutputMessage]

/-! ## Theorems: tracklist parser -/

theorem appendTracks_eq (list : Option (List Track)) (E : List Entry) :
    appendTracks list E =
      if E = [] then list
      else some (list.getD [] ++ E.map (fun e => Track.mk e.Artist e.Title e.Time)) := by
  induction E generalizing list with
  | nil => simp [appendTracks]
  | cons e rest ih =>
    simp only [appendTracks, ih, goAppend]
    by_cases hr : rest = []
    · simp [hr]
    · simp [hr]

/-- C7: for a decoded tracklist file with array `E`, `parseTracklist`
returns the tracks of `E` in the same order and number, the `i`-th with
`Artist`, `Song` and `Time` taken from the `artist`, `title` and `time` of
`E[i]`; label, url and time_str have no influence; the empty array gives the
empty (`nil`) sequence. -/
theorem parseTracklist_decoded (E : List Entry) :
    (parseTracklist (.decoded E)).getD [] =
      E.map (fun e => Track.mk e.Artist e.Title e.Time) ∧
    ((parseTracklist (.decoded E)).getD []).length = E.length ∧
    (∀ i : Nat, ((parseTracklist (.decoded E)).getD [])[i]? =
      E[i]?.map (fun e => Track.mk e.Artist e.Title e.Time)) ∧
    parseTracklist (.decoded []) = none ∧
    parseTracklist (.decoded E) = parseTracklist (.decoded
      (E.map (fun e => { e with Label := "", Url := "", TimeString := "" }))) := by
  have h : (parseTracklist (.decoded E)).getD [] =
      E.map (fun e => Track.mk e.Artist e.Title e.Time) := by
    simp only [parseTracklist, appendTracks_eq]
    by_cases hE : E = []
    · simp [hE]
    · simp [hE]
  refine ⟨h, by rw [h]; simp, ?_, by simp [parseTracklist, appendTracks], ?_⟩
  · intro i
    rw [h]; simp
  · simp only [parseTracklist, appendTracks_eq]
    by_cases hE : E = []
    · simp [hE]
    · simp [hE, Function.comp_def]

/-! ## Theorems: publish date input -/

theorem PublishDateInput_rejected (env : Env) (clock : Nat → Clock) (pre : List Int) :
    ∀ (k : Nat) (rest : List DateLine) (w : World),
      (∀ (i : Nat) (u : Int), pre[i]? = some u → u ≤ (clock (k + i)).now) →
      PublishDateInput env clock k (pre.map DateLine.parsed ++ rest) w =
        PublishDateInput env clock (k + pre.length) rest
          (World.mk
            (w.out ++ (List.range pre.length).map (fun i => datePrompt (clock (k + i))))
            (w.err ++ pre.map (fun u => env.Bold ++ env.Red ++
              ("Date " ++ env.rfc1123 u ++ " is not in the future") ++ env.Reset ++ "\n"))) := by
  induction pre with
  | nil => intro k rest w _; simp
  | cons u pre ih =>
    intro k rest w h
    have h0 : u ≤ (clock k).now := by simpa using h 0 u (by simp)
    have hstep : ∀ (i : Nat) (v : Int), pre[i]? = some v → v ≤ (clock (k + 1 + i)).now := by
      intro i v hv
      have := h (i + 1) v (by simpa using hv)
      have e : k + (i + 1) = k + 1 + i := by omega
      rwa [e] at this
    have hA : After u (clock k).now = false := by simp [After, h0]
    simp only [List.map_cons, List.cons_append, PublishDateInput, hA, Bool.not_false, if_true,
      List.append_eq]
    rw [ih (k + 1) rest _ hstep]
    have e1 : k + 1 + pre.length = k + (pre.length + 1) := by omega
    simp only [List.length_cons, e1, OutputError, OutputMessage]
    congr 2
    · rw [List.range_succ_eq_map]
      simp [Function.comp_def, Nat.add_assoc, Nat.add_comm 1]
    · simp

theorem PublishDateInput_sound (env : Env) (clock : Nat → Clock) (stdin : List DateLine) :
    ∀ (k : Nat) (w : World) (s : String) (w1 : World),
      PublishDateInput env clock k stdin w = .ret s w1 →
      ∃ (pre : List Int) (t : Int) (post : List DateLine),
        stdin = pre.map DateLine.parsed ++ DateLine.parsed t :: post ∧
        (∀ (i : Nat) (u : Int), pre[i]? = some u → u ≤ (clock (k + i)).now) ∧
        (clock (k + pre.length)).now < t := by
  induction stdin with
  | nil => intro k w s w1 h; simp [PublishDateInput] at h
  | cons line rest ih =>
    intro k w s w1 h
    cases line with
    | readError => simp [PublishDateInput] at h
    | malformed msg => simp [PublishDateInput] at h
    | parsed u =>
      by_cases hu : (clock k).now < u
      · exact ⟨[], u, rest, by simp, by simp, by simpa using hu⟩
      · have hA : After u (clock k).now = false := by simp [After, hu]
        simp only [PublishDateInput, hA, Bool.not_false, if_true] at h
        obtain ⟨pre, t, post, hrest, hpre, ht⟩ := ih (k + 1) _ s w1 h
        refine ⟨u :: pre, t, post, by simp [hrest], ?_, ?_⟩
        · intro i v hv
          cases i with
          | zero =>
            simp at hv
            subst hv
            simpa using Int.not_lt.1 hu
          | succ i =>
            have := hpre i v (by simpa using hv)
            have e : k + (i + 1) = k + 1 + i := by omega
            rwa [e]
        · have e : k + (u :: pre).length = k + 1 + pre.length := by simp; omega
          rwa [e]

theorem PublishDateInput_accepts (env : Env) (clock : Nat → Clock) (k : Nat) (w : World)
    (pre : List Int) (t : Int) (post : List DateLine)
    (hpre : ∀ (i : Nat) (u : Int), pre[i]? = some u → u ≤ (clock (k + i)).now)
    (ht : (clock (k + pre.length)).now < t) :
    PublishDateInput env clock k (pre.map DateLine.parsed ++ DateLine.parsed t :: post) w =
      .ret (formatRFC3339UTC t) (World.mk
        (w.out ++ (List.range (pre.length + 1)).map (fun i => datePrompt (clock (k + i))))
        (w.err ++ pre.map (fun u => env.Bold ++ env.Red ++
          ("Date " ++ env.rfc1123 u ++ " is not in the future") ++ env.Reset ++ "\n"))) := by
  rw [PublishDateInput_rejected env clock pre k _ w hpre]
  have hA : After t (clock (k + pre.length)).now = true := by simp [After, ht]
  simp [PublishDateInput, hA, OutputMessage, List.range_succ]

/-- C8: `PublishDateInput` returns exactly when the lines it is given start
with some timestamps, each not after the clock reading of its own prompt,
followed by a timestamp strictly after the reading of its prompt.  Each of
the former is rejected with a message and a new prompt, the value returned is
the UTC RFC 3339 form of the latter, and one prompt was written per line
read. -/
theorem PublishDateInput_returns_iff (env : Env) (clock : Nat → Clock) (k : Nat)
    (stdin : List DateLine) (w : World) (s : String) (w1 : World) :
    PublishDateInput env clock k stdin w = .ret s w1 ↔
      ∃ (pre : List Int) (t : Int) (post : List DateLine),
        stdin = pre.map DateLine.parsed ++ DateLine.parsed t :: post ∧
        (∀ (i : Nat) (u : Int), pre[i]? = some u → u ≤ (clock (k + i)).now) ∧
        (clock (k + pre.length)).now < t ∧
        s = formatRFC3339UTC t ∧
        w1 = World.mk
          (w.out ++ (List.range (pre.length + 1)).map (fun i => datePrompt (clock (k + i))))
          (w.err ++ pre.map (fun u => env.Bold ++ env.Red ++
            ("Date " ++ env.rfc1123 u ++ " is not in the future") ++ env.Reset ++ "\n")) := by
  have run := PublishDateInput_accepts env clock k w
  constructor
  · intro h
    obtain ⟨pre, t, post, hstdin, hpre, ht⟩ := PublishDateInput_sound env clock stdin k w s w1 h
    have hr := run pre t post hpre ht
    rw [← hstdin, h] at hr
    injection hr with hs hw
    exact ⟨pre, t, post, hstdin, hpre, ht, hs, hw⟩
  · rintro ⟨pre, t, post, hstdin, hpre, ht, hs, hw⟩
    rw [hstdin, hs, hw]
    exact run pre t post hpre ht

theorem PublishDateInput_cases (env : Env) (clock : Nat → Clock) (stdin : List DateLine) :
    ∀ (k : Nat) (w : World),
      (∃ w1, PublishDateInput env clock k stdin w = .exit 2 w1) ∨
      (∃ t w1, PublishDateInput env clock k stdin w = .ret (formatRFC3339UTC t) w1) := by
  induction stdin with
  | nil => intro k w; exact Or.inl ⟨_, rfl⟩
  | cons line rest ih =>
    intro k w
    cases line with
    | readError => exact Or.inl ⟨_, rfl⟩
    | malformed msg => exact Or.inl ⟨_, rfl⟩
    | parsed u =>
      simp only [PublishDateInput]
      split
      · exact ih _ _
      · exact Or.inr ⟨u, _, rfl⟩

theorem formatRFC3339UTC_ne_empty (t : Int) : formatRFC3339UTC t ≠ "" := by
  intro h
  have hl := congrArg String.length h
  simp only [formatRFC3339UTC, String.length_append] at hl
  have hz : ("Z" : String).length = 1 := by decide
  have he : ("" : String).length = 0 := by decide
  omega

theorem PublishDateInput_future_scenario :
    PublishDateInput sampleEnv (fixedClock 1700000000000000000) 0
        [.parsed 1600000000000000000, .parsed 1700000000000000000,
         .parsed 4102394400000000000] (World.mk [] []) =
      .ret "2099-12-31T10:00:00Z" (World.mk
        (List.replicate 3 "Enter a publish date in UTC (+0 GMT) [DD/MM/YYYY HH:MM]: ")
        (List.replicate 2 "\x1b[1m\x1b[31mDate past is not in the future\x1b[0m\n")) := by
  decide

/-! ## Theorems: premium fields -/

theorem PublishDateInput_ret_ne_empty (env : Env) (clock : Nat → Clock) (k : Nat)
    (stdin : List DateLine) (w : World) (s : String) (w1 : World)
    (h : PublishDateInput env clock k stdin w = .ret s w1) : (s != "") = true := by
  rcases PublishDateInput_cases env clock stdin k w with ⟨w2, h2⟩ | ⟨t, w2, h2⟩
  · rw [h2] at h; cases h
  · rw [h2] at h
    injection h with hs _
    subst hs
    simpa using formatRFC3339UTC_ne_empty t

theorem AddPremiumToHTTPWriter_pro_eq (env : Env) (ans : Answers) (clock : Nat → Clock)
    (stdin : List DateLine) (writer : Writer) (w : World) :
    AddPremiumToHTTPWriter env ⟨true⟩ ans clock stdin writer w =
      (if ans.publish_date then
        match PublishDateInput env clock 0 stdin
          (Printf "Set publish date? [y/n] " (Printf "Set to unlisted? [y/n] "
            (Printf "Hide statistics? [y/n] " (Printf "Disable comments? [y/n] "
              (OutputMessage
                ("\n" ++ env.Green ++ "Setting pro user attributes..." ++ env.Reset ++ "\n")
                w))))) with
        | .ret s w1 =>
          .ret (writer ++ [("publish_date", s)] ++
            (if ans.disable_comments then [("disable_comments", "1")] else []) ++
            (if ans.hide_stats then [("hide_stats", "1")] else []) ++
            (if ans.unlisted then [("unlisted", "1")] else [])) w1
        | .exit c w1 => .exit c w1
        | .panic m w1 => .panic m w1
      else
        .ret (writer ++
            (if ans.disable_comments then [("disable_comments", "1")] else []) ++
            (if ans.hide_stats then [("hide_stats", "1")] else []) ++
            (if ans.unlisted then [("unlisted", "1")] else []))
          (Printf "Set publish date? [y/n] " (Printf "Set to unlisted? [y/n] "
            (Printf "Hide statistics? [y/n] " (Printf "Disable comments? [y/n] "
              (OutputMessage
                ("\n" ++ env.Green ++ "Setting pro user attributes..." ++ env.Reset ++ "\n")
                w)))))) := by
  cases hp : ans.publish_date with
  | false =>
    simp only [AddPremiumToHTTPWriter, GetPremiumInput, hp, Bool.not_true, Bool.false_eq_true,
      if_false, bne_self_eq_false, WriteField]
    cases ans.disable_comments <;> cases ans.hide_stats <;> cases ans.unlisted <;> simp
  | true =>
    simp only [AddPremiumToHTTPWriter, GetPremiumInput, hp, Bool.not_true, Bool.false_eq_true,
      if_false, if_true]
    cases h : PublishDateInput env clock 0 stdin
        (Printf "Set publish date? [y/n] " (Printf "Set to unlisted? [y/n] "
          (Printf "Hide statistics? [y/n] " (Printf "Disable comments? [y/n] "
            (OutputMessage
              ("\n" ++ env.Green ++ "Setting pro user attributes..." ++ env.Reset ++ "\n")
              w))))) with
    | exit c w1 => rfl
    | panic m w1 => rfl
    | ret s w1 =>
      have hne := PublishDateInput_ret_ne_empty env clock 0 stdin _ s w1 h
      simp only [hne, if_true, WriteField]
      cases ans.disable_comments <;> cases ans.hide_stats <;> cases ans.unlisted <;> simp

/-- C3: for a user who is not pro `AddPremiumToHTTPWriter` returns the
writer untouched, whatever would be answered.  For a pro user the outcome is
fixed by the answers and by the publish date dialogue on the given input:
without a publish date it returns the writer extended by `disable_comments`,
`hide_stats` and `unlisted`, each with the value `1` and each only when its
answer was yes, and no `publish_date`; with a publish date it returns the
writer extended by `publish_date` with the value `PublishDateInput` returned
(never empty), followed by the same flags, and it stops as the dialogue
stops.  When the input is some rejected timestamps followed by one `t` in
the future, the field written is `publish_date` with the UTC RFC 3339 form of
`t`.  With only `disable_comments` chosen the single field added is
`disable_comments=1`. -/
theorem AddPremiumToHTTPWriter_fields (env : Env) (ans : Answers) (clock : Nat → Clock)
    (stdin : List DateLine) (writer : Writer) (w : World) :
    AddPremiumToHTTPWriter env ⟨false⟩ ans clock stdin writer w = .ret writer w ∧
    AddPremiumToHTTPWriter env ⟨true⟩ ans clock stdin writer w =
      (if ans.publish_date then
        match PublishDateInput env clock 0 stdin
          (Printf "Set publish date? [y/n] " (Printf "Set to unlisted? [y/n] "
            (Printf "Hide statistics? [y/n] " (Printf "Disable comments? [y/n] "
              (OutputMessage
                ("\n" ++ env.Green ++ "Setting pro user attributes..." ++ env.Reset ++ "\n")
                w))))) with
        | .ret s w1 =>
          .ret (writer ++ [("publish_date", s)] ++
            (if ans.disable_comments then [("disable_comments", "1")] else []) ++
            (if ans.hide_stats then [("hide_stats", "1")] else []) ++
            (if ans.unlisted then [("unlisted", "1")] else [])) w1
        | .exit c w1 => .exit c w1
        | .panic m w1 => .panic m w1
      else
        .ret (writer ++
            (if ans.disable_comments then [("disable_comments", "1")] else []) ++
            (if ans.hide_stats then [("hide_stats", "1")] else []) ++
            (if ans.unlisted then [("unlisted", "1")] else []))
          (Printf "Set publish date? [y/n] " (Printf "Set to unlisted? [y/n] "
            (Printf "Hide statistics? [y/n] " (Printf "Disable comments? [y/n] "
              (OutputMessage
                ("\n" ++ env.Green ++ "Setting pro user attributes..." ++ env.Reset ++ "\n")
                w)))))) ∧
    (∀ (pre : List Int) (t : Int) (post : List DateLine),
      (∀ (i : Nat) (u : Int), pre[i]? = some u → u ≤ (clock i).now) →
      (clock pre.length).now < t →
      ∃ w1, AddPremiumToHTTPWriter env ⟨true⟩ ans clock
          (pre.map DateLine.parsed ++ DateLine.parsed t :: post) writer w =
        .ret (writer ++
          (if ans.publish_date then [("publish_date", formatRFC3339UTC t)] else []) ++
          (if ans.disable_comments then [("disable_comments", "1")] else []) ++
          (if ans.hide_stats then [("hide_stats", "1")] else []) ++
          (if ans.unlisted then [("unlisted", "1")] else [])) w1) ∧
    (∀ (wr : Writer) (w1 : World),
      AddPremiumToHTTPWriter env ⟨true⟩ ans clock stdin writer w = .ret wr w1 →
      ∃ s : String, s ≠ "" ∧
        wr = writer ++ (if ans.publish_date then [("publish_date", s)] else []) ++
          (if ans.disable_comments then [("disable_comments", "1")] else []) ++
          (if ans.hide_stats then [("hide_stats", "1")] else []) ++
          (if ans.unlisted then [("unlisted", "1")] else [])) ∧
    (∃ w1, AddPremiumToHTTPWriter env ⟨true⟩ ⟨true, false, false, false⟩ clock stdin writer w =
      .ret (writer ++ [("disable_comments", "1")]) w1) := by
  refine ⟨by simp [AddPremiumToHTTPWriter], AddPremiumToHTTPWriter_pro_eq env ans clock stdin
    writer w, ?_, ?_, ?_⟩
  · intro pre t post hpre ht
    rw [AddPremiumToHTTPWriter_pro_eq]
    cases hp : ans.publish_date with
    | false =>
      simp only [Bool.false_eq_true, if_false, List.append_nil]
      exact ⟨_, rfl⟩
    | true =>
      have hacc := PublishDateInput_accepts env clock 0
        (Printf "Set publish date? [y/n] " (Printf "Set to unlisted? [y/n] "
          (Printf "Hide statistics? [y/n] " (Printf "Disable comments? [y/n] "
            (OutputMessage
              ("\n" ++ env.Green ++ "Setting pro user attributes..." ++ env.Reset ++ "\n")
              w))))) pre t post (by simpa using hpre) (by simpa using ht)
      rw [hacc]
      simp only [if_true]
      exact ⟨_, rfl⟩
  · intro wr w1 h
    rw [AddPremiumToHTTPWriter_pro_eq] at h
    cases hp : ans.publish_date with
    | false =>
      rw [hp] at h
      simp only [Bool.false_eq_true, if_false] at h
      injection h with hwr _
      exact ⟨"Z", by decide, by rw [← hwr]; simp⟩
    | true =>
      rw [hp] at h
      simp only [if_true] at h
      cases hd : PublishDateInput env clock 0 stdin
          (Printf "Set publish date? [y/n] " (Printf "Set to unlisted? [y/n] "
            (Printf "Hide statistics? [y/n] " (Printf "Disable comments? [y/n] "
              (OutputMessage
                ("\n" ++ env.Green ++ "Setting pro user attributes..." ++ env.Reset ++ "\n")
                w))))) with
      | exit c w2 => rw [hd] at h; cases h
      | panic m w2 => rw [hd] at h; cases h
      | ret s w2 =>
        rw [hd] at h
        injection h with hwr _
        have hne := PublishDateInput_ret_ne_empty env clock 0 stdin _ s w2 hd
        exact ⟨s, by simpa using hne, by rw [← hwr]; simp⟩
  · rw [AddPremiumToHTTPWriter_pro_eq]
    simp only [Bool.false_eq_true, if_false, List.append_nil]
    exact ⟨_, rfl⟩

theorem AddPremiumToHTTPWriter_fields_witness :
    ∃ w1, AddPremiumToHTTPWriter sampleEnv ⟨true⟩ ⟨true, false, true, true⟩
        (fixedClock 1700000000000000000)
        [.parsed 1600000000000000000, .parsed 4102394400000000000] [] (World.mk [] []) =
      .ret [("publish_date", "2099-12-31T10:00:00Z"), ("disable_comments", "1"),
        ("unlisted", "1")] w1 :=
  (AddPremiumToHTTPWriter_fields sampleEnv ⟨true, false, true, true⟩
    (fixedClock 1700000000000000000) [] [] (World.mk [] [])).2.2.1
    [1600000000000000000] 4102394400000000000 []
    (by
      intro i u h
      cases i with
      | zero =>
        simp at h
        subst h
        decide
      | succ i => simp at h)
    (by decide)

/-! ## Theorems: token exchange client -/

/-- C9, at the failing input: when the `access_token` member of the reply is
a JSON number, boolean, array or object, the unchecked type assertion of
`fetchAccessCode` panics instead of returning; only a string value is
returned, and an absent or `null` member gives the empty string. -/
theorem fetchAccessCode_panics_on_non_string (env : Env) (w : World) :
    fetchAccessCode env (.object [("access_token", .number "12345")]) w =
      .panic "interface conversion: interface \x7b\x7d is float64, not string" w ∧
    fetchAccessCode env (.object [("access_token", .bool true)]) w =
      .panic "interface conversion: interface \x7b\x7d is bool, not string" w ∧
    fetchAccessCode env (.object [("access_token", .array [])]) w =
      .panic "interface conversion: interface \x7b\x7d is []interface \x7b\x7d, not string" w ∧
    fetchAccessCode env (.object [("access_token", .object [])]) w =
      .panic "interface conversion: interface \x7b\x7d is map[string]interface \x7b\x7d, not string" w ∧
    fetchAccessCode env (.object [("access_token", .string "tok")]) w = .ret "tok" w ∧
    fetchAccessCode env (.object [("access_token", .null)]) w = .ret "" w ∧
    fetchAccessCode env (.object []) w = .ret "" w := by
  refine ⟨?_, ?_, ?_, ?_, ?_, ?_, ?_⟩ <;> rfl

/-! ## Theorems: configuration location -/

/-- C10, at the failing input: without `--config-dir` the flag pointer is not
`nil` but points to the empty string, so `setupApp` takes the default branch:
`CONFIG_FILE_PATH` becomes `""` and `CONFIG_FILE` stays `config.json`,
whatever the home directory is; `<home>/.mixcloud` is not used.  With
`--config-dir d` the path is `d` and the file is `Join(d, "config.json")`. -/
theorem setupApp_default_ignores_home (HomeDir d : String) (isNotExist : String → Bool) :
    setupAppFromArgs HomeDir none isNotExist =
      .ok (Globals.mk "config.json" "", if isNotExist "" then some "" else none) ∧
    setupAppFromArgs "/home/u" none isNotExist ≠
      .ok (Globals.mk "/home/u/.mixcloud/config.json" "/home/u/.mixcloud",
        if isNotExist "/home/u/.mixcloud" then some "/home/u/.mixcloud" else none) ∧
    setupAppFromArgs HomeDir (some d) isNotExist =
      .ok (Globals.mk (Join [d, "config.json"]) d, if isNotExist d then some d else none) ∧
    setupApp (some "/home/u") none isNotExist initGlobals =
      .ok (Globals.mk "/home/u/.mixcloud/config.json" "/home/u/.mixcloud",
        if isNotExist "/home/u/.mixcloud" then some "/home/u/.mixcloud" else none) := by
  refine ⟨rfl, ?_, rfl, rfl⟩
  intro h
  have h1 : setupAppFromArgs "/home/u" none isNotExist =
      .ok (Globals.mk "config.json" "", if isNotExist "" then some "" else none) := rfl
  rw [h1] at h
  injection h with h
  injection h with hg _
  exact absurd hg (by decide)

end Mixcloud
